import Mathlib

/-!
Shallow embedding of the Smart-Attendance-System report engine
(src/App.tsx, src/services/geminiService.ts, src/types.ts).

Modelling conventions:
* JavaScript strings are lists of characters (JSStr); string comparison with
  localeCompare is modelled as the lexicographic order on lists of characters,
  which agrees with it on the ASCII data these claims use.
* Report dates are stored in the source as ISO timestamp strings and compared
  through new Date(s).getTime(); we model a date directly as the epoch
  millisecond value (a natural number), whose order agrees with the order of
  the ISO strings.
* JavaScript Array.prototype.sort with a consistent comparator returns a
  permutation of the input that is sorted for the comparator; it is modelled
  by an insertion sort, for which we prove exactly those two properties.
* React functional state updates (setX(prev => ...)) are queued and applied
  in call order to the latest state; a handler that issues several updates is
  modelled as the composition of the update functions in call order.
* The remote Gemini calls are opaque: their response text is a parameter of
  the functions that consume it.
-/

namespace SmartAttendance

/-- JavaScript strings, modelled as lists of characters. -/
abbrev JSStr := List Char

/-- Embed a Lean string literal as a JavaScript string. -/
def js (s : String) : JSStr := s.data

/-- types.ts: Student. The display-only fields (imageBase64, imageType,
imageUrl) are kept as opaque strings; password is optional in the source. -/
structure Student where
  id : JSStr
  name : JSStr
  rollNumber : JSStr
  password : Option JSStr
  imageBase64 : JSStr
  imageType : JSStr
  imageUrl : JSStr
deriving DecidableEq

/-- types.ts: Classroom. -/
structure Classroom where
  id : JSStr
  name : JSStr
  students : List Student
deriving DecidableEq

/-- types.ts: AttendanceStatus. -/
inductive AttendanceStatus where
  | Present
  | Absent
deriving DecidableEq

/-- types.ts: AttendanceRecord. -/
structure AttendanceRecord where
  studentId : JSStr
  name : JSStr
  rollNumber : JSStr
  status : AttendanceStatus
deriving DecidableEq

/-- types.ts: BoundingBox (normalized fractional coordinates). -/
structure BoundingBox where
  top : ℚ
  right : ℚ
  bottom : ℚ
  left : ℚ
deriving DecidableEq

/-- types.ts: DetectedFace. -/
structure DetectedFace where
  id : JSStr
  name : JSStr
  box : BoundingBox
deriving DecidableEq

/-- types.ts: AttendanceReport. date is the epoch millisecond value of the
ISO timestamp string. -/
structure AttendanceReport where
  id : JSStr
  classroomId : JSStr
  classroomName : JSStr
  date : Nat
  period : JSStr
  attendance : List AttendanceRecord
  capturedImageAsDataUrl : JSStr
  detectedFaces : List DetectedFace
  engagementSummary : JSStr
deriving DecidableEq

/-- types.ts: GeminiAttendanceResponse. -/
structure GeminiAttendanceResponse where
  present : List DetectedFace
  unknown : List DetectedFace
  absent : List JSStr
  engagementSummary : JSStr
deriving DecidableEq

/-- App.tsx: the LoggedInUser role. -/
inductive Role where
  | teacher
  | student
deriving DecidableEq

/-- App.tsx: LoggedInUser. -/
structure LoggedInUser where
  role : Role
  studentId : Option JSStr
  classroomId : Option JSStr
deriving DecidableEq

/-- Insert an element into a list, placing it before the first element b with
le a b; models one step of a comparator sort. -/
def insertBy (le : α → α → Bool) (a : α) : List α → List α
  | [] => [a]
  | b :: bs => if le a b then a :: b :: bs else b :: insertBy le a bs

/-- Insertion sort by a Boolean comparator; models Array.prototype.sort with
a consistent comparator (the source comparators are all consistent). -/
def sortBy (le : α → α → Bool) : List α → List α
  | [] => []
  | a :: as => insertBy le a (sortBy le as)

/-- Comparator model of (a, b) => a.name.localeCompare(b.name). -/
def byName (a b : AttendanceRecord) : Bool := decide (a.name ≤ b.name)

/-- Comparator model of (a, b) => a.rollNumber.localeCompare(b.rollNumber). -/
def byRoll (a b : AttendanceRecord) : Bool := decide (a.rollNumber ≤ b.rollNumber)

/-- Comparator model of (a, b) => new Date(b.date).getTime() - new Date(a.date).getTime(),
which orders reports by descending date. -/
def byDateDesc (a b : AttendanceReport) : Bool := decide (b.date ≤ a.date)

/-- App.tsx handleTakeAttendance (lines 362-387): build the new report from the
recognition result. The fresh report id, the capture timestamp and the data
URL of the captured image are parameters (Date.now and file reading are
environment effects). -/
def handleTakeAttendance (students : List Student) (result : GeminiAttendanceResponse)
    (reportId : JSStr) (classroomId : JSStr) (classroomName : JSStr) (now : Nat)
    (period : JSStr) (imageDataUrl : JSStr) : AttendanceReport :=
  let presentNames := result.present.map DetectedFace.name
  let finalAttendance := sortBy byName (students.map fun student =>
    { studentId := student.id, name := student.name, rollNumber := student.rollNumber,
      status := if student.name ∈ presentNames then AttendanceStatus.Present
                else AttendanceStatus.Absent })
  { id := reportId, classroomId := classroomId, classroomName := classroomName,
    date := now, period := period, attendance := finalAttendance,
    capturedImageAsDataUrl := imageDataUrl,
    detectedFaces := result.present ++ result.unknown,
    engagementSummary := result.engagementSummary }

/-- App.tsx handleTakeAttendance (line 383): the state update
setAttendanceReports(prev => [newReport, ...prev].sort(byDateDesc)). -/
def insertReportSorted (newReport : AttendanceReport) (prev : List AttendanceReport) :
    List AttendanceReport :=
  sortBy byDateDesc (newReport :: prev)

/-- App.tsx handleStatusChange (line 393): the per-record map, flipping the
status of the record whose studentId matches. -/
def flipStatus : AttendanceStatus → AttendanceStatus
  | AttendanceStatus.Present => AttendanceStatus.Absent
  | AttendanceStatus.Absent => AttendanceStatus.Present

/-- App.tsx handleStatusChange (line 393): record => record.studentId === studentId
? status flipped : record. -/
def toggleRecord (studentId : JSStr) (record : AttendanceRecord) : AttendanceRecord :=
  if record.studentId = studentId then { record with status := flipStatus record.status }
  else record

/-- App.tsx handleStatusChange (lines 391-398): the per-report map. -/
def toggleReport (studentId reportId : JSStr) (report : AttendanceReport) : AttendanceReport :=
  if report.id = reportId then
    { report with attendance := report.attendance.map (toggleRecord studentId) }
  else report

/-- App.tsx handleStatusChange (lines 389-402): the functional state update
applied to the report list. -/
def handleStatusChange (studentId reportId : JSStr) (reports : List AttendanceReport) :
    List AttendanceReport :=
  reports.map (toggleReport studentId reportId)

/-- The slice of teacher-dashboard state touched by handleSuggestionConfirm:
the persisted report list and the currently displayed report. -/
structure TeacherState where
  attendanceReports : List AttendanceReport
  activeReport : AttendanceReport
deriving DecidableEq

/-- App.tsx handleSuggestionConfirm (line 421): the per-face map rewriting the
name of the face whose id matches. -/
def relabelFace (faceId newName : JSStr) (f : DetectedFace) : DetectedFace :=
  if f.id = faceId then { f with name := newName } else f

/-- App.tsx handleSuggestionConfirm (lines 417-426). The source issues two
queued functional updates on attendanceReports: first the toggle from
handleStatusChange, then a map that replaces the report whose id matches with
updatedReport, where updatedReport is built from the closure value of
activeReport (the pre-toggle report object). The final state is the second
update applied after the first. -/
def handleSuggestionConfirm (students : List Student) (suggestedName faceId : JSStr)
    (state : TeacherState) : TeacherState :=
  match students.find? (fun s => decide (s.name = suggestedName)) with
  | none => state
  | some student =>
      let afterToggle :=
        handleStatusChange student.id state.activeReport.id state.attendanceReports
      let updatedReport :=
        { state.activeReport with
            detectedFaces :=
              state.activeReport.detectedFaces.map (relabelFace faceId student.name) }
      { attendanceReports :=
          afterToggle.map fun r => if r.id = state.activeReport.id then updatedReport else r,
        activeReport := updatedReport }

/-- App.tsx handleDownloadCSV (line 739): headers.join(","). -/
def csvHeader : JSStr := js "Roll Number,Student Name,Status"

/-- App.tsx handleDownloadCSV (line 744): record.name.replace(quote, two quotes). -/
def escapeQuotes : JSStr → JSStr
  | [] => []
  | c :: cs => if c = '\"' then '\"' :: '\"' :: escapeQuotes cs else c :: escapeQuotes cs

/-- types.ts: the string value of an AttendanceStatus enum member. -/
def statusText : AttendanceStatus → JSStr
  | AttendanceStatus.Present => js "Present"
  | AttendanceStatus.Absent => js "Absent"

/-- App.tsx handleDownloadCSV (line 744): one data row,
[rollNumber, quoted escaped name, status].join(","). -/
def csvRow (record : AttendanceRecord) : JSStr :=
  List.intercalate (js ",")
    [record.rollNumber, js "\"" ++ escapeQuotes record.name ++ js "\"",
     statusText record.status]

/-- App.tsx handleDownloadCSV (lines 736-761). Returns the produced CSV text
and the attendance array after the call: the source calls attendance.sort(...)
on the report's own array, so the call mutates the stored record order to the
roll-number order (the second component). -/
def handleDownloadCSV (attendance : List AttendanceRecord) :
    JSStr × List AttendanceRecord :=
  let sorted := sortBy byRoll attendance
  (List.intercalate (js "\n") (csvHeader :: sorted.map csvRow), sorted)

/-- App.tsx handleDeleteClassroom (lines 306-312), the confirmed branch:
filter the classroom out of the classroom list and filter its reports out of
the report list. Returns (classrooms, reports) after the deletion. -/
def handleDeleteClassroom (id : JSStr) (classrooms : List Classroom)
    (reports : List AttendanceReport) : List Classroom × List AttendanceReport :=
  (classrooms.filter fun c => decide (¬ c.id = id),
   reports.filter fun r => decide (¬ r.classroomId = id))

/-- Model of String.prototype.trim: drop leading and trailing whitespace. -/
def isSpaceChar (c : Char) : Bool :=
  c = ' ' || c = '\t' || c = '\n' || c = '\r'

/-- Model of String.prototype.trim on JSStr. -/
def trimStr (s : JSStr) : JSStr :=
  ((s.dropWhile isSpaceChar).reverse.dropWhile isSpaceChar).reverse

/-- geminiService.ts identifyUnknownFace (lines 128-160). The remote model's
response text is the parameter modelResponseText. Returns the string result
together with a flag recording whether the remote call was performed: with an
empty candidate list the function returns the fixed sentinel before building
any request; otherwise it returns the trimmed response text unvalidated. -/
def identifyUnknownFace (modelResponseText : JSStr) (absentStudents : List Student) :
    JSStr × Bool :=
  if absentStudents.length = 0 then (js "No absent students to match against.", false)
  else (trimStr modelResponseText, true)

/-- Model of String.prototype.toLowerCase on the ASCII data used here. -/
def jsToLowerCase (s : JSStr) : JSStr := s.map Char.toLower

/-- App.tsx LoginPage.handleSubmit (line 126): the student-row predicate
s.rollNumber === libraryId && s.password === password. -/
def studentMatches (libraryId password : JSStr) (s : Student) : Bool :=
  decide (s.rollNumber = libraryId ∧ s.password = some password)

/-- App.tsx LoginPage.handleSubmit (lines 111-134), for a selected role:
teacher succeeds on the hardcoded credentials; student scans the classrooms in
order and logs in as the first student whose roll number and password match;
every other case returns no session (the invalid-credentials error path). -/
def handleSubmit (role : Role) (libraryId password : JSStr)
    (classrooms : List Classroom) : Option LoggedInUser :=
  match role with
  | Role.teacher =>
      if jsToLowerCase libraryId = js "teacher" ∧ password = js "password123" then
        some { role := Role.teacher, studentId := none, classroomId := none }
      else none
  | Role.student =>
      classrooms.findSome? fun classroom =>
        (classroom.students.find? (studentMatches libraryId password)).map fun student =>
          { role := Role.student, studentId := some student.id,
            classroomId := some classroom.id }

/-! Concrete sample data, used to evaluate the operations in closed theorems. -/

/-- A sample bounding box. -/
def box0 : BoundingBox := { top := 0, right := 0, bottom := 0, left := 0 }

/-- A sample roster student named Ann with roll number 1. -/
def annStudent : Student :=
  { id := js "s1", name := js "Ann", rollNumber := js "1", password := some (js "pw1"),
    imageBase64 := js "", imageType := js "", imageUrl := js "" }

/-- A sample report for Ann's classroom: Ann is Absent and one detected face
is still Unknown. -/
def sampleReport : AttendanceReport :=
  { id := js "r1", classroomId := js "c1", classroomName := js "ClassA",
    date := 1000, period := js "Math",
    attendance := [{ studentId := js "s1", name := js "Ann", rollNumber := js "1",
                     status := AttendanceStatus.Absent }],
    capturedImageAsDataUrl := js "img",
    detectedFaces := [{ id := js "f1", name := js "Unknown", box := box0 }],
    engagementSummary := js "calm" }

/-- A second sample report with a later capture date. -/
def laterReport : AttendanceReport :=
  { sampleReport with id := js "r2", date := 2000 }

/-- A sample classroom containing only Ann. -/
def sampleClassroom : Classroom :=
  { id := js "c1", name := js "ClassA", students := [annStudent] }

/-- Attendance record for Ann, Jr. with roll number 1 (the CSV example). -/
def annJrRecord : AttendanceRecord :=
  { studentId := js "sa", name := js "Ann, Jr.", rollNumber := js "1",
    status := AttendanceStatus.Absent }

/-- Attendance record for Bob with roll number 2 (the CSV example). -/
def bobRecord : AttendanceRecord :=
  { studentId := js "sb", name := js "Bob", rollNumber := js "2",
    status := AttendanceStatus.Present }

/-- Attendance record for Ann with roll number 2: name order and roll order
disagree between this record and bobRollOne. -/
def annRollTwo : AttendanceRecord :=
  { studentId := js "sa", name := js "Ann", rollNumber := js "2",
    status := AttendanceStatus.Absent }

/-- Attendance record for Bob with roll number 1. -/
def bobRollOne : AttendanceRecord :=
  { studentId := js "sb", name := js "Bob", rollNumber := js "1",
    status := AttendanceStatus.Present }

/-! Sorting lemmas: the insertion sort returns a sorted permutation. -/

theorem insertBy_perm (le : α → α → Bool) (a : α) (l : List α) :
    (insertBy le a l).Perm (a :: l) := by
  induction l with
  | nil => simp [insertBy]
  | cons b bs ih =>
    by_cases h : le a b = true
    · simp [insertBy, h]
    · simp only [insertBy, h, if_neg, Bool.false_eq_true, ite_false]
      exact (ih.cons b).trans (List.Perm.swap a b bs)

theorem sortBy_perm (le : α → α → Bool) (l : List α) : (sortBy le l).Perm l := by
  induction l with
  | nil => simp [sortBy]
  | cons a as ih => exact (insertBy_perm le a (sortBy le as)).trans (ih.cons a)

theorem pairwise_insertBy (le : α → α → Bool)
    (htotal : ∀ a b, le a b = true ∨ le b a = true)
    (htrans : ∀ a b c, le a b = true → le b c = true → le a c = true)
    (a : α) (l : List α) (hl : l.Pairwise (fun x y => le x y = true)) :
    (insertBy le a l).Pairwise (fun x y => le x y = true) := by
  induction l with
  | nil => simp [insertBy]
  | cons b bs ih =>
    rcases List.pairwise_cons.mp hl with ⟨hb, hbs⟩
    by_cases h : le a b = true
    · simp only [insertBy, h, ite_true]
      refine List.pairwise_cons.mpr ⟨?_, hl⟩
      intro y hy
      rcases List.mem_cons.mp hy with rfl | hy'
      · exact h
      · exact htrans a b y h (hb y hy')
    · simp only [insertBy, h, Bool.false_eq_true, ite_false]
      refine List.pairwise_cons.mpr ⟨?_, ih hbs⟩
      intro y hy
      have hy2 : y = a ∨ y ∈ bs := by
        simpa using (insertBy_perm le a bs).mem_iff.mp hy
      rcases hy2 with rfl | hy'
      · rcases htotal y b with h1 | h2
        · exact absurd h1 h
        · exact h2
      · exact hb y hy'

theorem sortBy_pairwise (le : α → α → Bool)
    (htotal : ∀ a b, le a b = true ∨ le b a = true)
    (htrans : ∀ a b c, le a b = true → le b c = true → le a c = true)
    (l : List α) : (sortBy le l).Pairwise (fun x y => le x y = true) := by
  induction l with
  | nil => simp [sortBy]
  | cons a as ih => exact pairwise_insertBy le htotal htrans a (sortBy le as) ih

/-! Claim theorems. -/

/-- Claim C1 (code_bug evidence): resolving an unknown face is NOT atomic.
With roster [Ann], a report where Ann is Absent and face f1 is Unknown, and
that report active, confirming the suggestion Ann for face f1 leaves a final
report list in which the face has been relabeled to Ann while the attendance
status is still Absent: the second queued state update overwrites the toggled
report with a copy built from the stale activeReport closure value, losing the
toggle performed by handleStatusChange. -/
theorem handleSuggestionConfirm_loses_toggle :
    (handleSuggestionConfirm [annStudent] (js "Ann") (js "f1")
        { attendanceReports := [sampleReport], activeReport := sampleReport
        }).attendanceReports.map
        (fun r => (r.attendance.map AttendanceRecord.status,
                   r.detectedFaces.map DetectedFace.name)) =
      [([AttendanceStatus.Absent], [js "Ann"])] := by decide

/-- Claim C5 (code_bug evidence): downloading the CSV mutates the report.
The source sorts the report's own attendance array in place by roll number, so
for a report whose records are stored in name order [Ann (roll 2), Bob (roll 1)]
the stored order after the export is [Bob, Ann], different from the original:
the export does not leave the attendance-list order unchanged. -/
theorem handleDownloadCSV_reorders_attendance :
    (handleDownloadCSV [annRollTwo, bobRollOne]).2 = [bobRollOne, annRollTwo] ∧
    ([bobRollOne, annRollTwo] : List AttendanceRecord) ≠ [annRollTwo, bobRollOne] := by
  decide

/-- Claim C7: deleting a classroom removes exactly the reports whose
classroomId equals the deleted id, and removes the classroom itself: a report
survives the deletion exactly when it was there before and references a
different classroom, and a classroom survives exactly when it was there before
and has a different id. -/
theorem handleDeleteClassroom_spec (id : JSStr) (classrooms : List Classroom)
    (reports : List AttendanceReport) :
    (∀ r : AttendanceReport,
        r ∈ (handleDeleteClassroom id classrooms reports).2 ↔
          r ∈ reports ∧ r.classroomId ≠ id) ∧
    (∀ c : Classroom,
        c ∈ (handleDeleteClassroom id classrooms reports).1 ↔
          c ∈ classrooms ∧ c.id ≠ id) := by
  constructor
  · intro r
    simp [handleDeleteClassroom, List.mem_filter]
  · intro c
    simp [handleDeleteClassroom, List.mem_filter]

/-- Claim C8: when no roster student bears the confirmed name,
handleSuggestionConfirm leaves the state unchanged: the report list (hence
every report's attendance and detectedFaces) and the active report are exactly
what they were. -/
theorem handleSuggestionConfirm_no_match (students : List Student)
    (suggestedName faceId : JSStr) (state : TeacherState)
    (h : ∀ s ∈ students, s.name ≠ suggestedName) :
    handleSuggestionConfirm students suggestedName faceId state = state := by
  have hfind : students.find? (fun s => decide (s.name = suggestedName)) = none := by
    rw [List.find?_eq_none]
    intro x hx
    simpa using h x hx
  simp [handleSuggestionConfirm, hfind]

/-- Witness for claim C8: with roster [Ann], confirming the name Zed (which
matches no roster student) leaves the concrete sample state unchanged. -/
theorem handleSuggestionConfirm_no_match_witness :
    handleSuggestionConfirm [annStudent] (js "Zed") (js "f1")
        { attendanceReports := [sampleReport], activeReport := sampleReport } =
      { attendanceReports := [sampleReport], activeReport := sampleReport } :=
  handleSuggestionConfirm_no_match [annStudent] (js "Zed") (js "f1")
    { attendanceReports := [sampleReport], activeReport := sampleReport } (by decide)

/-- Claim C9 (counterexample): the claim that a non-empty candidate list makes
the identify operation return either a candidate name or the unable-to-identify
sentinel is false: the code returns the remote model's trimmed response text
without validating it, so a response such as Bogus is returned verbatim even
though it is neither the candidate name Ann nor either spelling of the
sentinel. -/
theorem identifyUnknownFace_unvalidated :
    ¬ ((identifyUnknownFace (js "Bogus") [annStudent]).1 ∈ [annStudent].map Student.name ∨
       (identifyUnknownFace (js "Bogus") [annStudent]).1 = js "unable to identify" ∨
       (identifyUnknownFace (js "Bogus") [annStudent]).1 = js "Unable to identify") := by
  decide

/-- Claim C9 (amended): with an empty candidate list the identify operation
returns the fixed no-candidates sentinel and performs no remote call; with a
non-empty candidate list it performs the remote call and returns the model's
response text, trimmed, with no validation against the candidate names. -/
theorem identifyUnknownFace_spec (modelResponseText : JSStr) (s : Student)
    (rest : List Student) :
    identifyUnknownFace modelResponseText [] =
        (js "No absent students to match against.", false) ∧
    identifyUnknownFace modelResponseText (s :: rest) =
        (trimStr modelResponseText, true) := by
  constructor <;> rfl

/-- Claim C2: building a report emits exactly one attendance record per
enrolled student: the list has one record per student, the recorded student
ids are pairwise distinct (given the roster ids are), every student yields a
record carrying their id, name and roll number whose status is Present exactly
when the student's name occurs among the names of the recognition result's
present faces, and every record comes from some enrolled student. -/
theorem handleTakeAttendance_attendance_spec (students : List Student)
    (result : GeminiAttendanceResponse) (reportId classroomId classroomName : JSStr)
    (now : Nat) (period imageDataUrl : JSStr) (report : AttendanceReport)
    (hreport : report = handleTakeAttendance students result reportId classroomId
      classroomName now period imageDataUrl)
    (hids : (students.map Student.id).Nodup) :
    report.attendance.length = students.length ∧
    (report.attendance.map AttendanceRecord.studentId).Nodup ∧
    (∀ s ∈ students, ∃ r ∈ report.attendance,
        r.studentId = s.id ∧ r.name = s.name ∧ r.rollNumber = s.rollNumber ∧
        (r.status = AttendanceStatus.Present ↔
          s.name ∈ result.present.map DetectedFace.name)) ∧
    (∀ r ∈ report.attendance, ∃ s ∈ students, r.studentId = s.id) := by
  subst hreport
  have hperm :
      (handleTakeAttendance students result reportId classroomId classroomName now
        period imageDataUrl).attendance.Perm
        (students.map fun student =>
          ({ studentId := student.id, name := student.name,
             rollNumber := student.rollNumber,
             status := if student.name ∈ result.present.map DetectedFace.name then
               AttendanceStatus.Present else AttendanceStatus.Absent } :
            AttendanceRecord)) := by
    simpa [handleTakeAttendance] using
      sortBy_perm byName (students.map fun student =>
        ({ studentId := student.id, name := student.name,
           rollNumber := student.rollNumber,
           status := if student.name ∈ result.present.map DetectedFace.name then
             AttendanceStatus.Present else AttendanceStatus.Absent } :
          AttendanceRecord))
  refine ⟨?_, ?_, ?_, ?_⟩
  · rw [hperm.length_eq, List.length_map]
  · have h2 := hperm.map AttendanceRecord.studentId
    rw [List.map_map] at h2
    exact h2.nodup_iff.mpr hids
  · intro s hs
    refine ⟨_, hperm.mem_iff.mpr (List.mem_map_of_mem _ hs), rfl, rfl, rfl, ?_⟩
    by_cases hmem : s.name ∈ result.present.map DetectedFace.name
    · simp [hmem]
    · simp [hmem]
  · intro r hr
    rcases List.mem_map.mp (hperm.mem_iff.mp hr) with ⟨s, hs, rfl⟩
    exact ⟨s, hs, rfl⟩

/-- Witness for claim C2: for a concrete two-student roster with pairwise
distinct ids and a recognition result in which only Ann was recognised, the
built report has one record per student. -/
theorem handleTakeAttendance_attendance_spec_witness :
    ((([annStudent,
        { annStudent with id := js "s2", name := js "Bob", rollNumber := js "2" }] :
          List Student).map Student.id).Nodup) ∧
    (handleTakeAttendance
        [annStudent,
         { annStudent with id := js "s2", name := js "Bob", rollNumber := js "2" }]
        { present := [{ id := js "f1", name := js "Ann", box := box0 }],
          unknown := [], absent := [js "Bob"], engagementSummary := js "" }
        (js "r9") (js "c1") (js "ClassA") 5000 (js "Math") (js "img")).attendance.length
      = 2 :=
  ⟨by decide,
    (handleTakeAttendance_attendance_spec
      [annStudent,
       { annStudent with id := js "s2", name := js "Bob", rollNumber := js "2" }]
      { present := [{ id := js "f1", name := js "Ann", box := box0 }],
        unknown := [], absent := [js "Bob"], engagementSummary := js "" }
      (js "r9") (js "c1") (js "ClassA") 5000 (js "Math") (js "img") _ rfl
      (by decide)).1⟩

theorem flipStatus_flipStatus (s : AttendanceStatus) : flipStatus (flipStatus s) = s := by
  cases s <;> rfl

theorem flipStatus_ne (s : AttendanceStatus) : flipStatus s ≠ s := by
  cases s <;> decide

theorem toggleRecord_toggleRecord (studentId : JSStr) (r : AttendanceRecord) :
    toggleRecord studentId (toggleRecord studentId r) = r := by
  obtain ⟨rsid, rname, rroll, rstatus⟩ := r
  by_cases h : rsid = studentId
  · subst h
    simp [toggleRecord, flipStatus_flipStatus]
  · simp [toggleRecord, h]

theorem toggleReport_toggleReport (studentId reportId : JSStr) (rep : AttendanceReport) :
    toggleReport studentId reportId (toggleReport studentId reportId rep) = rep := by
  obtain ⟨rid, rcid, rcname, rdate, rperiod, ratt, rimg, rfaces, rsum⟩ := rep
  by_cases h : rid = reportId
  · subst h
    simp [toggleReport, List.map_map, Function.comp_def, toggleRecord_toggleRecord]
  · simp [toggleReport, h]

/-- Claim C3: the status toggle is an involution and frame-preserving:
toggling the same (studentId, reportId) pair twice restores the entire report
list; a single toggle keeps the list length, leaves every report with a
different id untouched, rewrites a report with the matching id by mapping
toggleRecord over its attendance only, and toggleRecord leaves records of
other students untouched while changing exactly the status field of a matching
record to the flipped value, which always differs from the original. -/
theorem handleStatusChange_spec (studentId reportId : JSStr)
    (reports : List AttendanceReport) :
    handleStatusChange studentId reportId (handleStatusChange studentId reportId reports)
      = reports ∧
    (handleStatusChange studentId reportId reports).length = reports.length ∧
    (∀ i, ∀ hi : i < reports.length, (reports[i]).id ≠ reportId →
        (handleStatusChange studentId reportId reports)[i]? = some reports[i]) ∧
    (∀ i, ∀ hi : i < reports.length, (reports[i]).id = reportId →
        (handleStatusChange studentId reportId reports)[i]? =
          some { reports[i] with
                   attendance := (reports[i]).attendance.map (toggleRecord studentId) }) ∧
    (∀ record : AttendanceRecord, record.studentId ≠ studentId →
        toggleRecord studentId record = record) ∧
    (∀ record : AttendanceRecord, record.studentId = studentId →
        toggleRecord studentId record = { record with status := flipStatus record.status } ∧
        flipStatus record.status ≠ record.status) := by
  refine ⟨?_, ?_, ?_, ?_, ?_, ?_⟩
  · simp [handleStatusChange, List.map_map, Function.comp_def, toggleReport_toggleReport]
  · simp [handleStatusChange]
  · intro i hi h
    simp [handleStatusChange, List.getElem?_map, List.getElem?_eq_getElem hi,
      toggleReport, h]
  · intro i hi h
    simp [handleStatusChange, List.getElem?_map, List.getElem?_eq_getElem hi,
      toggleReport, h]
  · intro record h
    simp [toggleRecord, h]
  · intro record h
    exact ⟨by simp [toggleRecord, h], flipStatus_ne record.status⟩

/-- Witness for claim C3: toggling Ann twice in the sample report restores the
report list, and a single toggle of a non-matching report id leaves the sample
report in place. -/
theorem handleStatusChange_spec_witness :
    handleStatusChange (js "s1") (js "r1")
        (handleStatusChange (js "s1") (js "r1") [sampleReport]) = [sampleReport] ∧
    (handleStatusChange (js "s1") (js "zz") [sampleReport])[0]? = some sampleReport :=
  ⟨(handleStatusChange_spec (js "s1") (js "r1") [sampleReport]).1,
   (handleStatusChange_spec (js "s1") (js "zz") [sampleReport]).2.2.1 0 (by decide)
     (by decide)⟩

/-- Claim C4 (counterexample): the claim that the name field is quoted only
when it contains a comma or a quote, with data rows 1,quoted Ann Jr.,Absent
then 2,Bob,Present, is false on the code: the export wraps every name in
quotes, so the second row carries Bob in quotes and the produced text differs
from the claimed one. -/
theorem handleDownloadCSV_quoting_counterexample :
    (handleDownloadCSV [bobRecord, annJrRecord]).1 ≠
      js "Roll Number,Student Name,Status\n1,\"Ann, Jr.\",Absent\n2,Bob,Present" := by
  decide

/-- Claim C4 (amended): the CSV export produces the header row followed by one
row per record ordered by roll number ascending, each row being the roll
number, the name always wrapped in quotes with embedded quotes doubled, and
the status, comma-separated; on the example input the data rows are
1,quoted Ann Jr.,Absent then 2,quoted Bob,Present. -/
theorem handleDownloadCSV_spec (attendance : List AttendanceRecord) :
    (∃ sorted : List AttendanceRecord,
        sorted.Perm attendance ∧
        sorted.Pairwise (fun a b => a.rollNumber ≤ b.rollNumber) ∧
        (handleDownloadCSV attendance).1 =
          List.intercalate (js "\n") (csvHeader :: sorted.map csvRow) ∧
        (handleDownloadCSV attendance).2 = sorted) ∧
    (∀ record : AttendanceRecord,
        csvRow record =
          record.rollNumber ++ js "," ++ js "\"" ++ escapeQuotes record.name ++
            js "\"" ++ js "," ++ statusText record.status) ∧
    (handleDownloadCSV [bobRecord, annJrRecord]).1 =
      js "Roll Number,Student Name,Status\n1,\"Ann, Jr.\",Absent\n2,\"Bob\",Present" := by
  refine ⟨⟨sortBy byRoll attendance, sortBy_perm byRoll attendance, ?_, rfl, rfl⟩, ?_, ?_⟩
  · have h := sortBy_pairwise byRoll
      (fun a b => by
        simp only [byRoll, decide_eq_true_eq]
        exact le_total a.rollNumber b.rollNumber)
      (fun a b c h1 h2 => by
        simp only [byRoll, decide_eq_true_eq] at h1 h2 ⊢
        exact le_trans h1 h2)
      attendance
    exact h.imp (by simp only [byRoll, decide_eq_true_eq]; exact fun h => h)
  · intro record
    simp [csvRow, List.intercalate, js, List.append_assoc]
  · decide

/-- Claim C6 (counterexample): the history is not always sorted STRICTLY by
descending timestamp: inserting a report whose capture timestamp equals that
of an existing report (nothing prevents two captures in the same millisecond)
yields a history with two equal timestamps, which no strictly-descending
ordering admits. -/
theorem insertReportSorted_ties_counterexample :
    ¬ (insertReportSorted { sampleReport with id := js "r3" }
        [sampleReport]).Pairwise (fun a b => b.date < a.date) := by
  decide

/-- Claim C6 (amended): inserting a new report into the history re-sorts the whole list
by descending date, so after any insertion the history is sorted strictly by
descending timestamp (strictly, provided the capture timestamps are pairwise
distinct), and is a permutation of the new report together with the previous
history. -/
theorem insertReportSorted_spec (newReport : AttendanceReport)
    (prev : List AttendanceReport)
    (hdates : ((newReport :: prev).map AttendanceReport.date).Nodup) :
    (insertReportSorted newReport prev).Pairwise (fun a b => b.date < a.date) ∧
    (insertReportSorted newReport prev).Perm (newReport :: prev) := by
  have hperm : (insertReportSorted newReport prev).Perm (newReport :: prev) :=
    sortBy_perm byDateDesc (newReport :: prev)
  refine ⟨?_, hperm⟩
  have hle : (insertReportSorted newReport prev).Pairwise (fun a b => b.date ≤ a.date) := by
    have h := sortBy_pairwise byDateDesc
      (fun a b => by
        simp only [byDateDesc, decide_eq_true_eq]
        exact le_total b.date a.date)
      (fun a b c h1 h2 => by
        simp only [byDateDesc, decide_eq_true_eq] at h1 h2 ⊢
        exact le_trans h2 h1)
      (newReport :: prev)
    exact h.imp (by simp only [byDateDesc, decide_eq_true_eq]; exact fun h => h)
  have hnd : ((insertReportSorted newReport prev).map AttendanceReport.date).Nodup :=
    ((hperm.map AttendanceReport.date).nodup_iff).mpr hdates
  have hne : (insertReportSorted newReport prev).Pairwise
      (fun a b => a.date ≠ b.date) := by
    rw [List.Nodup, List.pairwise_map] at hnd
    exact hnd
  exact (hle.and hne).imp fun h => lt_of_le_of_ne h.1 (Ne.symm h.2)

/-- Witness for claim C6: inserting the later sample report in front of the
earlier one (distinct dates) yields a strictly descending history. -/
theorem insertReportSorted_spec_witness :
    (((laterReport :: [sampleReport]).map AttendanceReport.date).Nodup) ∧
    (insertReportSorted laterReport [sampleReport]).Pairwise
      (fun a b => b.date < a.date) :=
  ⟨by decide, (insertReportSorted_spec laterReport [sampleReport] (by decide)).1⟩

/-- Claim C10: login as teacher succeeds exactly on the hardcoded credentials
(the entered library id lowercased equals teacher and the password equals
password123) and can only produce the teacher session; login as student
succeeds exactly when some classroom contains a student whose roll number and
password match the entered credentials, and the produced session belongs to
the first matching student in classroom-list order (no earlier classroom has a
match, and no earlier student of the same classroom matches); every other
input produces no session. -/
theorem handleSubmit_spec (libraryId password : JSStr) (classrooms : List Classroom) :
    (handleSubmit Role.teacher libraryId password classrooms =
        some { role := Role.teacher, studentId := none, classroomId := none } ↔
      jsToLowerCase libraryId = js "teacher" ∧ password = js "password123") ∧
    (∀ u, handleSubmit Role.teacher libraryId password classrooms = some u →
        u = { role := Role.teacher, studentId := none, classroomId := none }) ∧
    ((handleSubmit Role.student libraryId password classrooms).isSome ↔
      ∃ c ∈ classrooms, ∃ s ∈ c.students,
        s.rollNumber = libraryId ∧ s.password = some password) ∧
    (∀ u, handleSubmit Role.student libraryId password classrooms = some u →
        ∃ pre c post, classrooms = pre ++ c :: post ∧
          (∀ c' ∈ pre, ∀ s' ∈ c'.students,
              ¬ (s'.rollNumber = libraryId ∧ s'.password = some password)) ∧
          ∃ spre s spost, c.students = spre ++ s :: spost ∧
            (∀ s' ∈ spre,
                ¬ (s'.rollNumber = libraryId ∧ s'.password = some password)) ∧
            s.rollNumber = libraryId ∧ s.password = some password ∧
            u = { role := Role.student, studentId := some s.id,
                  classroomId := some c.id }) := by
  refine ⟨?_, ?_, ?_, ?_⟩
  · by_cases h : jsToLowerCase libraryId = js "teacher" ∧ password = js "password123"
    · simp [handleSubmit, h]
    · simp [handleSubmit, h]
  · intro u hu
    simp only [handleSubmit] at hu
    split_ifs at hu with h
    exact (Option.some.inj hu).symm
  · induction classrooms with
    | nil => simp [handleSubmit]
    | cons c rest ih =>
      cases hfind : c.students.find? (studentMatches libraryId password) with
      | some s =>
        have hs := List.mem_of_find?_eq_some hfind
        have hp : studentMatches libraryId password s = true := List.find?_some hfind
        rw [studentMatches, decide_eq_true_eq] at hp
        simp only [handleSubmit, List.findSome?_cons, hfind, Option.map_some']
        exact iff_of_true rfl ⟨c, List.mem_cons_self c rest, s, hs, hp⟩
      | none =>
        have hPc : ¬ ∃ s ∈ c.students,
            s.rollNumber = libraryId ∧ s.password = some password := by
          rintro ⟨s, hs, hm⟩
          have h1 : studentMatches libraryId password s = true := by
            simp [studentMatches, hm.1, hm.2]
          exact List.find?_eq_none.mp hfind s hs h1
        simp only [handleSubmit, List.findSome?_cons, hfind, Option.map_none'] at ih ⊢
        rw [ih]
        constructor
        · rintro ⟨c', hc', s, hs, hm⟩
          exact ⟨c', List.mem_cons_of_mem c hc', s, hs, hm⟩
        · rintro ⟨c', hc', s, hs, hm⟩
          rcases List.mem_cons.mp hc' with rfl | hc'
          · exact absurd ⟨s, hs, hm⟩ hPc
          · exact ⟨c', hc', s, hs, hm⟩
  · induction classrooms with
    | nil =>
      intro u hu
      simp [handleSubmit] at hu
    | cons c rest ih =>
      intro u hu
      cases hfind : c.students.find? (studentMatches libraryId password) with
      | some s =>
        simp only [handleSubmit, List.findSome?_cons, hfind, Option.map_some'] at hu
        obtain ⟨hp, spre, spost, hsplit, hpre⟩ := List.find?_eq_some.mp hfind
        rw [studentMatches, decide_eq_true_eq] at hp
        refine ⟨[], c, rest, rfl, by simp, spre, s, spost, hsplit, ?_, hp.1, hp.2,
          (Option.some.inj hu).symm⟩
        intro s' hs' hm
        have := hpre s' hs'
        rw [Bool.not_eq_true', studentMatches, decide_eq_false_iff_not] at this
        exact this hm
      | none =>
        simp only [handleSubmit, List.findSome?_cons, hfind, Option.map_none'] at hu
        obtain ⟨pre, c', post, hsplit, hpre, hrest⟩ := ih u hu
        refine ⟨c :: pre, c', post, by rw [hsplit]; rfl, ?_, hrest⟩
        intro c'' hc'' s' hs' hm
        rcases List.mem_cons.mp hc'' with rfl | hc''
        · have h1 : studentMatches libraryId password s' = true := by
            simp [studentMatches, hm.1, hm.2]
          exact List.find?_eq_none.mp hfind s' hs' h1
        · exact hpre c'' hc'' s' hs' hm

/-- Witness for claim C10: the teacher logs in with library id TEACHER (any
casing) and the hardcoded password, and Ann logs in as a student with her roll
number and password against the sample classroom. -/
theorem handleSubmit_spec_witness :
    handleSubmit Role.teacher (js "TEACHER") (js "password123") [] =
        some { role := Role.teacher, studentId := none, classroomId := none } ∧
    (handleSubmit Role.student (js "1") (js "pw1") [sampleClassroom]).isSome :=
  ⟨(handleSubmit_spec (js "TEACHER") (js "password123") []).1.mpr ⟨by decide, rfl⟩,
   (handleSubmit_spec (js "1") (js "pw1") [sampleClassroom]).2.2.1.mpr
     ⟨sampleClassroom, by decide, annStudent, by decide, by decide, by decide⟩⟩

end SmartAttendance
